import Mathlib

/-!
Shallow embedding of the notebook package (src/notebook.go): an in-memory HTML
notebook made of titled cells, keyed header fragments and a console text buffer,
rendered through a fixed template into a single HTML document.
-/

namespace NotebookGo

/-- Concatenation of a list of strings, by structural recursion. -/
def sjoin : List String → String
  | [] => ""
  | s :: l => s ++ sjoin l

/-- Replacement applied to one character of an interpolated plain-string value by
Go's html/template engine (its htmlReplacementTable); template.HTML values bypass
this replacement. -/
def escapeChar (c : Char) : String :=
  if c = Char.ofNat 0 then "�"
  else if c = '"' then "&#34;"
  else if c = '&' then "&amp;"
  else if c = '\'' then "&#39;"
  else if c = '+' then "&#43;"
  else if c = '<' then "&lt;"
  else if c = '=' then "&#61;"
  else if c = '>' then "&gt;"
  else String.singleton c

/-- HTML escaping of an interpolated string value, as the template engine applies it
to the notebook Title, each cell Title and the Console text. -/
def htmlEscape (s : String) : String := sjoin (s.toList.map escapeChar)

/-- cell (notebook.go line 22): a buffer of plain html plus a title. -/
structure cell where
  content : String
  Title : String
deriving DecidableEq

/-- Notebook (notebook.go line 34). The headers field models the Go map from header
id to header fragment: none is the nil map of a zero-value Notebook, some m an
allocated map represented as an association list with pairwise-distinct keys. -/
structure Notebook where
  Title : String
  Output : String
  cells : List cell
  headers : Option (List (String × String))
  console : String
deriving DecidableEq

/-- HeaderCellStyle (notebook.go line 19). -/
def HeaderCellStyle : String := "cell-style"

/-- cellStyle (notebook.go line 147): the built-in default stylesheet fragment. -/
def cellStyle : String :=
  "<style>\n\t.cell-container \x7b\n\t\tdisplay: flex;\n\t\tflex-direction: column;\n\t\x7d\n\tdetails.cell \x7b\n\t\tborder: 1px solid #aaa;\n\t\tborder-radius: 4px;\n\t\tpadding: 0.5em 0.5em 0;\n\t\tdisplay: block;\n\t\x7d\n\tdetails.cell > summary \x7b\n\t\tfont-weight: bold;\n\t\tmargin: -0.5em -0.5em 0;\n\t\tpadding: 0.5em;\n\t\x7d\n\tdetails[open].cell \x7b\n\t\tpadding: 0.5em;\n\t\x7d\n\tdetails[open].cell > summary \x7b\n\t\tborder-bottom: 1px solid #aaa;\n\t\tmargin-bottom: 0.5em;\n\t\x7d\n</style>"

/-- path.Base from Go's path package: the last element of the path after dropping
trailing slashes; "." for the empty path, "/" when the path is all slashes. -/
def pathBase (p : String) : String :=
  if p = "" then "."
  else
    let cs := (p.toList.reverse.dropWhile (fun c => c == '/')).reverse
    let base := (cs.reverse.takeWhile (fun c => c != '/')).reverse
    if base = [] then "/" else String.mk base

/-- isSeparator from Go's strings package, modelled on its ASCII branch (program
names are ASCII); runes above 0x7F are treated as non-separators here. -/
def isSeparator (c : Char) : Bool :=
  if c.toNat ≤ 0x7F then
    if '0' ≤ c ∧ c ≤ '9' then false
    else if 'a' ≤ c ∧ c ≤ 'z' then false
    else if 'A' ≤ c ∧ c ≤ 'Z' then false
    else if c = '_' then false
    else true
  else false

/-- Helper for stringsTitle: upper-cases each rune that follows a separator,
threading the previous rune through the walk. -/
def titleMap (prev : Char) : List Char → List Char
  | [] => []
  | c :: cs => (if isSeparator prev then c.toUpper else c) :: titleMap c cs

/-- strings.Title from Go's strings package, used by New for the default title:
title-cases the first rune of each word (the initial previous rune is a space). -/
def stringsTitle (s : String) : String := String.mk (titleMap ' ' s.toList)

/-- New (notebook.go line 47). os.Args[0] is ambient process state; it is passed in
as the argument arg0. -/
def New (arg0 : String) : Notebook :=
  let name := pathBase arg0
  { Title := stringsTitle name
    Output := name ++ ".html"
    cells := []
    headers := some [(HeaderCellStyle, cellStyle)]
    console := "" }

/-- The zero value of the Go Notebook struct: empty strings, nil slice, nil map. -/
def Notebook.zero : Notebook :=
  { Title := "", Output := "", cells := [], headers := none, console := "" }

/-- AddContent (notebook.go line 60): appends a fresh cell holding the given title
and content at the end of the cell list. -/
def Notebook.AddContent (nb : Notebook) (title content : String) : Notebook :=
  { nb with cells := nb.cells ++ [{ content := content, Title := title }] }

/-- Go map assignment m[id] = content on the association-list representation: the
binding for id, if any, is discarded and the new binding recorded. -/
def mapSet (m : List (String × String)) (id content : String) : List (String × String) :=
  (id, content) :: m.filter (fun p => p.1 != id)

/-- AddHeader (notebook.go line 69): allocates the map when it is nil, then stores
the fragment under id, overwriting any previous value. -/
def Notebook.AddHeader (nb : Notebook) (id content : String) : Notebook :=
  match nb.headers with
  | none => { nb with headers := some (mapSet [] id content) }
  | some m => { nb with headers := some (mapSet m id content) }

/-- Print (notebook.go line 77): fmt.Fprint to the console buffer, modelled for an
already-formatted string operand; writes to the in-memory buffer cannot fail, so
only the byte count is returned alongside the new state. -/
def Notebook.Print (nb : Notebook) (a : String) : Notebook × Nat :=
  ({ nb with console := nb.console ++ a }, a.utf8ByteSize)

/-- Printf (notebook.go line 80), modelled on the result of the format expansion. -/
def Notebook.Printf (nb : Notebook) (formatted : String) : Notebook × Nat :=
  ({ nb with console := nb.console ++ formatted }, formatted.utf8ByteSize)

/-- Println (notebook.go line 85): as Print with a trailing newline appended. -/
def Notebook.Println (nb : Notebook) (a : String) : Notebook × Nat :=
  ({ nb with console := nb.console ++ a ++ "\n" }, (a ++ "\n").utf8ByteSize)

/-- The association list stored in the headers map (empty for the nil map). -/
def headersList (nb : Notebook) : List (String × String) := nb.headers.getD []

/-- The header ids of one enumeration of the map, sorted ascending (nbView.Headers,
notebook.go line 112: retrieve the keys and sort them so the order is repeatable). -/
def sortedKeys (m : List (String × String)) : List String :=
  List.insertionSort (· ≤ ·) (m.map Prod.fst)

/-- nbView.Headers (notebook.go line 109) computed from one enumeration of the
header map: Go map iteration yields the bindings in an unspecified order, so enum
ranges over permutations of the stored bindings; the keys are sorted and each
fragment is emitted unescaped (template.HTML). -/
def HeadersEnum (enum : List (String × String)) : List String :=
  (sortedKeys enum).map (fun k => (List.lookup k enum).getD "")

/-- nbView.Headers on the canonical enumeration of the stored map. -/
def Headers (nb : Notebook) : List String := HeadersEnum (headersList nb)

/-- The writes the template makes for one cell (notebook.go lines 133-138): the
summary holds the escaped title, the body the verbatim content. -/
def cellChunks (c : cell) : List String :=
  ["\n\t\t\t<details open class=\"cell\">\n\t\t\t\t<summary>", htmlEscape c.Title,
   "</summary>\n\t\t\t\t", c.content, "\n\t\t\t</details>"]

/-- One rendered cell block as a single string. -/
def cellBlock (title content : String) : String :=
  "\n\t\t\t<details open class=\"cell\">\n\t\t\t\t<summary>" ++ htmlEscape title ++
    "</summary>\n\t\t\t\t" ++ content ++ "\n\t\t\t</details>"

/-- The rendered block of a cell value. -/
def renderCell (c : cell) : String := cellBlock c.Title c.content

/-- Everything the template emits before the first cell block: doctype, head with
the optional escaped title and the sorted header fragments, body opening with the
optional escaped h1 heading (notebook.go lines 124-132). -/
def headPart (title : String) (headers : List String) : String :=
  "<!DOCTYPE html>\n<html>\n\t<head>" ++
    (if title = "" then "" else "<title>" ++ htmlEscape title ++ "</title>") ++
    sjoin headers ++
    "</head>\n\t<body>\n\t\t" ++
    (if title = "" then "" else "<h1>" ++ htmlEscape title ++ "</h1>") ++
    "\n\t\t<div class=\"cell-container\">"

/-- The trailing Console block and document close (notebook.go lines 139-145): the
console text is escaped inside the pre element. -/
def consoleTail (console : String) : String :=
  "\n\t\t\t<details open class=\"cell\">\n\t\t\t\t<summary>Console</summary>\n\t\t\t\t<pre>" ++
    htmlEscape console ++ "</pre>\n\t\t\t</details>\n\t\t</div>\n\t</body>\n</html>"

/-- The sequence of strings nbTemplate.Execute writes for a notebook, given the
order enum in which the header map was enumerated (notebook.go lines 123-145). -/
def renderChunksWith (nb : Notebook) (enum : List (String × String)) : List String :=
  ["<!DOCTYPE html>\n<html>\n\t<head>"] ++
    (if nb.Title = "" then [] else ["<title>", htmlEscape nb.Title, "</title>"]) ++
    HeadersEnum enum ++
    ["</head>\n\t<body>\n\t\t"] ++
    (if nb.Title = "" then [] else ["<h1>", htmlEscape nb.Title, "</h1>"]) ++
    ["\n\t\t<div class=\"cell-container\">"] ++
    (nb.cells.map cellChunks).flatten ++
    ["\n\t\t\t<details open class=\"cell\">\n\t\t\t\t<summary>Console</summary>\n\t\t\t\t<pre>",
     htmlEscape nb.console,
     "</pre>\n\t\t\t</details>\n\t\t</div>\n\t</body>\n</html>"]

/-- The full rendered document for a given header enumeration. -/
def renderStringWith (nb : Notebook) (enum : List (String × String)) : String :=
  sjoin (renderChunksWith nb enum)

/-- The full rendered document on the canonical enumeration. -/
def renderString (nb : Notebook) : String := renderStringWith nb (headersList nb)

/-- An io.Writer: write receives the bytes already written and the next chunk, and
returns none on success or some message when the write fails. -/
structure Sink where
  write : String → String → Option String

/-- Writes the chunks in order into the sink, stopping at the first failed write;
on success the accumulated bytes are returned. -/
def writeAll (w : Sink) (written : String) : List String → Except String String
  | [] => Except.ok written
  | c :: cs =>
    match w.write written c with
    | none => writeAll w (written ++ c) cs
    | some e => Except.error e

/-- A sink whose writes always succeed. -/
def allOk : Sink := { write := fun _ _ => none }

/-- Render (notebook.go line 101): executes the template into w. The method reads
the notebook only through the nbView accessors, so the state returned as second
component is the receiver itself; enum is the header-map iteration order. -/
def Notebook.Render (nb : Notebook) (enum : List (String × String)) (w : Sink) :
    Except String String × Notebook :=
  (writeAll w "" (renderChunksWith nb enum), nb)

/-- The two errors Close can produce (notebook.go lines 88-98): the create failure
message names the output path and carries no underlying error (that fmt.Errorf call
has no %w verb), while the render failure wraps the render error with %w. -/
inductive CloseError where
  | createError (output : String) : CloseError
  | renderError (cause : String) : CloseError
deriving DecidableEq

/-- errors.Unwrap on a CloseError: only the render error wraps a cause. -/
def unwrapClose : CloseError → Option String
  | CloseError.createError _ => none
  | CloseError.renderError e => some e

/-- Close (notebook.go line 88): create the output file (create models os.Create,
applied to the notebook's Output path and failing with a cause message), render
into it and translate failures; the deferred f.Close error is discarded by the
source. On success the bytes written to the file are returned. -/
def Notebook.Close (nb : Notebook) (enum : List (String × String))
    (create : String → Except String Sink) : Except CloseError String :=
  match create nb.Output with
  | Except.error _ => Except.error (CloseError.createError nb.Output)
  | Except.ok f =>
    match (nb.Render enum f).1 with
    | Except.error e => Except.error (CloseError.renderError e)
    | Except.ok out => Except.ok out

/-- A sequence of AddHeader calls, applied left to right. -/
def addHeaders (nb : Notebook) (ops : List (String × String)) : Notebook :=
  ops.foldl (fun acc p => acc.AddHeader p.1 p.2) nb

/-- A sequence of AddContent calls, applied left to right. -/
def addContents (nb : Notebook) (ops : List (String × String)) : Notebook :=
  ops.foldl (fun acc p => acc.AddContent p.1 p.2) nb

/-- Representation invariant of the header map: its association-list keys are
pairwise distinct. -/
def HeadersWF (nb : Notebook) : Prop := ((headersList nb).map Prod.fst).Nodup

set_option maxRecDepth 100000 in
/-- Sanity anchor: the embedding reproduces, byte for byte, the expected output of
the package's ExampleNew_Simple test (program name notebook.test, console text
Hello world, default stylesheet overridden by the empty fragment). -/
theorem render_matches_go_example :
    renderString ((((New "notebook.test").Print "Hello world").1).AddHeader HeaderCellStyle "") =
      "<!DOCTYPE html>\n<html>\n\t<head><title>Notebook.Test</title></head>\n\t<body>\n\t\t<h1>Notebook.Test</h1>\n\t\t<div class=\"cell-container\">\n\t\t\t<details open class=\"cell\">\n\t\t\t\t<summary>Console</summary>\n\t\t\t\t<pre>Hello world</pre>\n\t\t\t</details>\n\t\t</div>\n\t</body>\n</html>" := by
  rfl

theorem sjoin_append (l₁ l₂ : List String) : sjoin (l₁ ++ l₂) = sjoin l₁ ++ sjoin l₂ := by
  induction l₁ with
  | nil => simp [sjoin, String.empty_append]
  | cons s t ih => simp [sjoin, ih, String.append_assoc]

theorem lookup_cons' (k : String) (p : String × String) (l : List (String × String)) :
    List.lookup k (p :: l) = if k = p.1 then some p.2 else List.lookup k l := by
  obtain ⟨a, b⟩ := p
  by_cases h : k = a
  · subst h
    simp [List.lookup_cons]
  · have hb : (k == a) = false := by simpa using h
    simp [List.lookup_cons, hb, h]

theorem lookup_filter_ne (k id : String) (m : List (String × String)) (h : k ≠ id) :
    List.lookup k (m.filter (fun p => p.1 != id)) = List.lookup k m := by
  induction m with
  | nil => rfl
  | cons p t ih =>
    by_cases hp : p.1 = id
    · have hkp : k ≠ p.1 := fun hc => h (hc.trans hp)
      simp [List.filter_cons, hp, lookup_cons', hkp, h, ih]
    · simp [List.filter_cons, hp, lookup_cons', ih]

theorem lookup_mapSet (m : List (String × String)) (id content k : String) :
    List.lookup k (mapSet m id content) =
      if k = id then some content else List.lookup k m := by
  by_cases h : k = id
  · simp [mapSet, lookup_cons', h]
  · simp [mapSet, lookup_cons', h, lookup_filter_ne k id m h]

theorem map_fst_filter_ne (m : List (String × String)) (id : String) :
    (m.filter (fun p => p.1 != id)).map Prod.fst = (m.map Prod.fst).filter (fun x => x != id) := by
  induction m with
  | nil => rfl
  | cons p t ih => by_cases hp : p.1 = id <;> simp [List.filter_cons, hp, ih]

theorem nodup_keys_mapSet (m : List (String × String)) (id content : String)
    (h : (m.map Prod.fst).Nodup) : ((mapSet m id content).map Prod.fst).Nodup := by
  have : (mapSet m id content).map Prod.fst =
      id :: (m.map Prod.fst).filter (fun x => x != id) := by
    simp [mapSet, map_fst_filter_ne]
  rw [this, List.nodup_cons]
  refine ⟨?_, h.filter _⟩
  intro hmem
  rw [List.mem_filter] at hmem
  simpa using hmem.2

theorem lookup_isSome_iff_mem_keys (k : String) (m : List (String × String)) :
    (List.lookup k m).isSome = true ↔ k ∈ m.map Prod.fst := by
  induction m with
  | nil => simp [List.lookup]
  | cons p t ih =>
    by_cases h : k = p.1
    · simp [lookup_cons', h]
    · simp [lookup_cons', h, ih]

theorem lookup_eq_of_perm (k : String) {m₁ m₂ : List (String × String)} (hp : m₁.Perm m₂) :
    (m₁.map Prod.fst).Nodup → List.lookup k m₁ = List.lookup k m₂ := by
  induction hp with
  | nil => intro _; rfl
  | cons x t₁t₂ ih =>
    intro hn
    rw [List.map_cons, List.nodup_cons] at hn
    by_cases h : k = x.1
    · simp [lookup_cons', h]
    · simp [lookup_cons', h, ih hn.2]
  | swap x y l =>
    intro hn
    simp only [List.map_cons, List.nodup_cons, List.mem_cons] at hn
    have hxy : y.1 ≠ x.1 := fun hcontra => hn.1 (Or.inl hcontra)
    by_cases hky : k = y.1 <;> by_cases hkx : k = x.1
    · exact absurd (hky ▸ hkx) hxy
    · simp [lookup_cons', hky, hkx, hxy]
    · simp [lookup_cons', hky, hkx, Ne.symm hxy]
    · simp [lookup_cons', hky, hkx]
  | trans p₁ p₂ ih₁ ih₂ =>
    intro hn
    have hn' := ((p₁.map Prod.fst).nodup_iff).mp hn
    exact (ih₁ hn).trans (ih₂ hn')

theorem lookup_append (k : String) (l₁ l₂ : List (String × String)) :
    List.lookup k (l₁ ++ l₂) =
      (match List.lookup k l₁ with
       | some v => some v
       | none => List.lookup k l₂) := by
  induction l₁ with
  | nil => rfl
  | cons p t ih =>
    by_cases h : k = p.1
    · simp [lookup_cons', h]
    · simp [lookup_cons', h, ih]

theorem sortedKeys_eq_of_perm (m₁ m₂ : List (String × String))
    (h : (m₁.map Prod.fst).Perm (m₂.map Prod.fst)) : sortedKeys m₁ = sortedKeys m₂ :=
  List.eq_of_perm_of_sorted
    ((List.perm_insertionSort _ _).trans (h.trans (List.perm_insertionSort _ _).symm))
    (List.sorted_insertionSort _ _) (List.sorted_insertionSort _ _)

theorem HeadersEnum_eq_of_lookup_eq (m₁ m₂ : List (String × String))
    (hn₁ : (m₁.map Prod.fst).Nodup) (hn₂ : (m₂.map Prod.fst).Nodup)
    (h : ∀ k, List.lookup k m₁ = List.lookup k m₂) : HeadersEnum m₁ = HeadersEnum m₂ := by
  have hmem : ∀ x, x ∈ m₁.map Prod.fst ↔ x ∈ m₂.map Prod.fst := fun x => by
    rw [← lookup_isSome_iff_mem_keys, ← lookup_isSome_iff_mem_keys, h]
  have hperm : (m₁.map Prod.fst).Perm (m₂.map Prod.fst) :=
    (List.perm_ext_iff_of_nodup hn₁ hn₂).2 hmem
  have hkeys : sortedKeys m₁ = sortedKeys m₂ := sortedKeys_eq_of_perm _ _ hperm
  unfold HeadersEnum
  rw [hkeys]
  exact List.map_congr_left (fun k _ => by rw [h])

theorem headersList_AddHeader (nb : Notebook) (id content : String) :
    headersList (nb.AddHeader id content) = mapSet (headersList nb) id content := by
  cases h : nb.headers <;> simp [Notebook.AddHeader, headersList, h]

theorem headersWF_AddHeader (nb : Notebook) (id content : String) (h : HeadersWF nb) :
    HeadersWF (nb.AddHeader id content) := by
  unfold HeadersWF
  rw [headersList_AddHeader]
  exact nodup_keys_mapSet _ _ _ h

theorem addHeaders_cons (nb : Notebook) (p : String × String) (t : List (String × String)) :
    addHeaders nb (p :: t) = addHeaders (nb.AddHeader p.1 p.2) t := rfl

theorem headersWF_addHeaders (ops : List (String × String)) (nb : Notebook) (h : HeadersWF nb) :
    HeadersWF (addHeaders nb ops) := by
  induction ops generalizing nb with
  | nil => exact h
  | cons p t ih => exact ih _ (headersWF_AddHeader nb p.1 p.2 h)

theorem lookup_addHeaders (ops : List (String × String)) (nb : Notebook) (k : String) :
    List.lookup k (headersList (addHeaders nb ops)) =
      (match List.lookup k ops.reverse with
       | some v => some v
       | none => List.lookup k (headersList nb)) := by
  induction ops generalizing nb with
  | nil => rfl
  | cons p t ih =>
    rw [addHeaders_cons, ih, show (p :: t).reverse = t.reverse ++ [p] from by simp,
      lookup_append]
    cases hl : List.lookup k t.reverse
    · rw [headersList_AddHeader, lookup_mapSet]
      by_cases hk : k = p.1
      · simp [lookup_cons', hk]
      · simp [lookup_cons', hk]
    · rfl

theorem addContents_cons (nb : Notebook) (p : String × String) (t : List (String × String)) :
    addContents nb (p :: t) = addContents (nb.AddContent p.1 p.2) t := rfl

theorem addContents_cells (ops : List (String × String)) (nb : Notebook) :
    (addContents nb ops).cells =
      nb.cells ++ ops.map (fun p => ({ content := p.2, Title := p.1 } : cell)) := by
  induction ops generalizing nb with
  | nil => simp [addContents]
  | cons p t ih =>
    rw [addContents_cons, ih]
    simp [Notebook.AddContent]

theorem addContents_Title (ops : List (String × String)) (nb : Notebook) :
    (addContents nb ops).Title = nb.Title := by
  induction ops generalizing nb with
  | nil => rfl
  | cons p t ih => exact ih (nb.AddContent p.1 p.2)

theorem addContents_headers (ops : List (String × String)) (nb : Notebook) :
    (addContents nb ops).headers = nb.headers := by
  induction ops generalizing nb with
  | nil => rfl
  | cons p t ih => exact ih (nb.AddContent p.1 p.2)

theorem addContents_console (ops : List (String × String)) (nb : Notebook) :
    (addContents nb ops).console = nb.console := by
  induction ops generalizing nb with
  | nil => rfl
  | cons p t ih => exact ih (nb.AddContent p.1 p.2)

theorem writeAll_of_accepts (w : Sink) (h : ∀ a c, w.write a c = none)
    (cs : List String) (acc : String) :
    writeAll w acc cs = Except.ok (acc ++ sjoin cs) := by
  induction cs generalizing acc with
  | nil => simp [writeAll, sjoin, String.append_empty]
  | cons c t ih => simp [writeAll, h, ih, sjoin, String.append_assoc]

theorem writeAll_error_source (w : Sink) (cs : List String) (acc : String) (e : String)
    (h : writeAll w acc cs = Except.error e) : ∃ a c, w.write a c = some e := by
  induction cs generalizing acc with
  | nil => simp [writeAll] at h
  | cons c t ih =>
    unfold writeAll at h
    cases hw : w.write acc c with
    | none =>
      rw [hw] at h
      exact ih _ h
    | some f =>
      rw [hw] at h
      simp only [Except.error.injEq] at h
      exact ⟨acc, c, by rw [hw, h]⟩

theorem sjoin_cellChunks_eq_renderCell (c : cell) : sjoin (cellChunks c) = renderCell c := by
  simp [cellChunks, sjoin, renderCell, cellBlock, String.append_assoc, String.append_empty]

theorem sjoin_flatten_cellChunks (cs : List cell) :
    sjoin ((cs.map cellChunks).flatten) = sjoin (cs.map renderCell) := by
  induction cs with
  | nil => rfl
  | cons c t ih =>
    simp only [List.map_cons, List.flatten_cons]
    rw [sjoin_append, ih, sjoin_cellChunks_eq_renderCell]
    rfl

theorem renderStringWith_decomp (nb : Notebook) (enum : List (String × String)) :
    renderStringWith nb enum =
      headPart nb.Title (HeadersEnum enum) ++ sjoin (nb.cells.map renderCell) ++
        consoleTail nb.console := by
  unfold renderStringWith renderChunksWith headPart consoleTail
  by_cases h : nb.Title = "" <;>
    simp [h, sjoin_append, sjoin, sjoin_flatten_cellChunks, String.append_assoc,
      String.append_empty, String.empty_append] <;>
    rfl

theorem renderString_decomp (nb : Notebook) :
    renderString nb =
      headPart nb.Title (Headers nb) ++ sjoin (nb.cells.map renderCell) ++
        consoleTail nb.console :=
  renderStringWith_decomp nb _

theorem HeadersEnum_perm (nb : Notebook) (enum : List (String × String))
    (h : enum.Perm (headersList nb)) (hwf : HeadersWF nb) :
    HeadersEnum enum = Headers nb := by
  have hn : (enum.map Prod.fst).Nodup := ((h.map Prod.fst).nodup_iff).mpr hwf
  exact HeadersEnum_eq_of_lookup_eq _ _ hn hwf (fun k => lookup_eq_of_perm k h hn)

theorem renderStringWith_perm (nb : Notebook) (enum : List (String × String))
    (h : enum.Perm (headersList nb)) (hwf : HeadersWF nb) :
    renderStringWith nb enum = renderString nb := by
  rw [renderStringWith_decomp, renderString_decomp, HeadersEnum_perm nb enum h hwf]

theorem mapSet_mapSet (m : List (String × String)) (id v₁ v₂ : String) :
    mapSet (mapSet m id v₁) id v₂ = mapSet m id v₂ := by
  unfold mapSet
  simp [List.filter_cons, List.filter_filter]

/-- C1: for every notebook state, the header fragments emitted into the document
head are the fragments of the sorted key list, the key list is in ascending
lexicographic order, the emitted sequence does not depend on the order of the
AddHeader calls that inserted the headers, and any two states with equal header
mappings render identical head fragment sequences. -/
theorem headers_sorted_and_insertion_order_free
    (nb : Notebook) (ops₁ ops₂ : List (String × String))
    (hperm : ops₁.Perm ops₂) (hnd : (ops₁.map Prod.fst).Nodup) (hwf : HeadersWF nb) :
    List.Sorted (· ≤ ·) (sortedKeys (headersList (addHeaders nb ops₁))) ∧
    Headers (addHeaders nb ops₁) =
      (sortedKeys (headersList (addHeaders nb ops₁))).map
        (fun k => (List.lookup k (headersList (addHeaders nb ops₁))).getD "") ∧
    Headers (addHeaders nb ops₁) = Headers (addHeaders nb ops₂) ∧
    (∀ nbA nbB : Notebook, HeadersWF nbA → HeadersWF nbB →
      (∀ k, List.lookup k (headersList nbA) = List.lookup k (headersList nbB)) →
      Headers nbA = Headers nbB) := by
  refine ⟨List.sorted_insertionSort _ _, rfl, ?_, ?_⟩
  · have hwf₁ : HeadersWF (addHeaders nb ops₁) := headersWF_addHeaders _ _ hwf
    have hwf₂ : HeadersWF (addHeaders nb ops₂) := headersWF_addHeaders _ _ hwf
    have hndrev : (ops₁.reverse.map Prod.fst).Nodup := by
      rw [List.map_reverse, List.nodup_reverse]
      exact hnd
    have hrevperm : ops₁.reverse.Perm ops₂.reverse :=
      (ops₁.reverse_perm.trans hperm).trans ops₂.reverse_perm.symm
    have hlook : ∀ k, List.lookup k (headersList (addHeaders nb ops₁)) =
        List.lookup k (headersList (addHeaders nb ops₂)) := by
      intro k
      rw [lookup_addHeaders, lookup_addHeaders, lookup_eq_of_perm k hrevperm hndrev]
    exact HeadersEnum_eq_of_lookup_eq _ _ hwf₁ hwf₂ hlook
  · intro nbA nbB hA hB hlook
    exact HeadersEnum_eq_of_lookup_eq _ _ hA hB hlook

/-- Witness for the C1 theorem: two concrete insertion orders of the same headers
on a fresh notebook render the same head fragment sequence. -/
theorem headers_sorted_and_insertion_order_free_witness :
    ([(("b" : String), ("B" : String)), ("a", "A")]).Perm [(("a" : String), ("A" : String)), ("b", "B")] ∧
    (([(("b" : String), ("B" : String)), ("a", "A")]).map Prod.fst).Nodup ∧
    HeadersWF (New "prog") ∧
    Headers (addHeaders (New "prog") [("b", "B"), ("a", "A")]) =
      Headers (addHeaders (New "prog") [("a", "A"), ("b", "B")]) := by
  refine ⟨by decide, by decide, by unfold HeadersWF; decide, ?_⟩
  exact (headers_sorted_and_insertion_order_free (New "prog") [("b", "B"), ("a", "A")]
    [("a", "A"), ("b", "B")] (by decide) (by decide) (by unfold HeadersWF; decide)).2.2.1

/-- C2: starting from a notebook with no cells, a sequence of AddContent calls
renders one cell block per call, in exactly the call order, followed by the single
trailing Console block. -/
theorem cells_rendered_in_call_order (nb : Notebook) (h : nb.cells = [])
    (ps : List (String × String)) :
    (addContents nb ps).cells.length = ps.length ∧
    renderString (addContents nb ps) =
      headPart nb.Title (Headers nb) ++ sjoin (ps.map (fun p => cellBlock p.1 p.2)) ++
        consoleTail nb.console := by
  constructor
  · rw [addContents_cells, h]
    simp
  · rw [renderString_decomp, addContents_Title, addContents_console, addContents_cells, h]
    have hH : Headers (addContents nb ps) = Headers nb := by
      unfold Headers headersList
      rw [addContents_headers]
    rw [hH]
    simp only [List.nil_append, List.map_map]
    rfl

/-- Witness for the C2 theorem at a concrete two-cell insertion sequence. -/
theorem cells_rendered_in_call_order_witness :
    (New "prog").cells = [] ∧
    ((addContents (New "prog") [("t1", "c1"), ("t2", "c2")]).cells.length =
        ([(("t1" : String), ("c1" : String)), ("t2", "c2")]).length ∧
      renderString (addContents (New "prog") [("t1", "c1"), ("t2", "c2")]) =
        headPart (New "prog").Title (Headers (New "prog")) ++
          sjoin (([(("t1" : String), ("c1" : String)), ("t2", "c2")]).map
            (fun p => cellBlock p.1 p.2)) ++
          consoleTail (New "prog").console) :=
  ⟨rfl, cells_rendered_in_call_order (New "prog") rfl [("t1", "c1"), ("t2", "c2")]⟩

/-- C3: rendering is deterministic and effect-free: whatever orders the header map
iterates in, renders of the same unmutated notebook produce identical bytes, a
fully accepting sink receives exactly the rendered document both times, and the
notebook state comes back unchanged from Render. -/
theorem render_deterministic_and_pure
    (nb : Notebook) (enum₁ enum₂ : List (String × String)) (w : Sink)
    (h₁ : enum₁.Perm (headersList nb)) (h₂ : enum₂.Perm (headersList nb))
    (hwf : HeadersWF nb) :
    renderStringWith nb enum₁ = renderStringWith nb enum₂ ∧
    (nb.Render enum₁ allOk).1 = Except.ok (renderString nb) ∧
    (nb.Render enum₂ allOk).1 = Except.ok (renderString nb) ∧
    (nb.Render enum₁ w).2 = nb := by
  have e₁ : renderStringWith nb enum₁ = renderString nb := renderStringWith_perm nb enum₁ h₁ hwf
  have e₂ : renderStringWith nb enum₂ = renderString nb := renderStringWith_perm nb enum₂ h₂ hwf
  refine ⟨e₁.trans e₂.symm, ?_, ?_, rfl⟩
  · show writeAll allOk "" (renderChunksWith nb enum₁) = _
    rw [writeAll_of_accepts allOk (fun _ _ => rfl) _ _, String.empty_append]
    exact congrArg Except.ok e₁
  · show writeAll allOk "" (renderChunksWith nb enum₂) = _
    rw [writeAll_of_accepts allOk (fun _ _ => rfl) _ _, String.empty_append]
    exact congrArg Except.ok e₂

set_option maxRecDepth 100000 in
/-- Witness for the C3 theorem: two concrete enumeration orders of a two-header
map yield byte-identical rendered documents. -/
theorem render_deterministic_and_pure_witness :
    ([(("a" : String), ("A" : String)), (HeaderCellStyle, cellStyle)]).Perm
        (headersList ((New "prog").AddHeader "a" "A")) ∧
    ([((HeaderCellStyle : String), cellStyle), ("a", "A")]).Perm
        (headersList ((New "prog").AddHeader "a" "A")) ∧
    HeadersWF ((New "prog").AddHeader "a" "A") ∧
    renderStringWith ((New "prog").AddHeader "a" "A")
        [("a", "A"), (HeaderCellStyle, cellStyle)] =
      renderStringWith ((New "prog").AddHeader "a" "A")
        [(HeaderCellStyle, cellStyle), ("a", "A")] := by
  refine ⟨by decide, by decide, by unfold HeadersWF; decide, ?_⟩
  exact (render_deterministic_and_pure ((New "prog").AddHeader "a" "A")
    [("a", "A"), (HeaderCellStyle, cellStyle)] [(HeaderCellStyle, cellStyle), ("a", "A")]
    allOk (by decide) (by decide) (by unfold HeadersWF; decide)).1

/-- C4: console text written through Print, Printf or Println reaches the Console
block HTML-escaped inside the pre element, while content passed to AddContent is
emitted verbatim in its cell body; in particular the characters < and & of console
text become the escaped literals. -/
theorem console_escaped_cell_content_verbatim (nb : Notebook) (s t c : String) :
    ((nb.Print s).1).console = nb.console ++ s ∧
    ((nb.Printf s).1).console = nb.console ++ s ∧
    ((nb.Println s).1).console = nb.console ++ s ++ "\n" ∧
    renderString (((nb.Print s).1).AddContent t c) =
      headPart nb.Title (Headers nb) ++
        (sjoin (nb.cells.map renderCell) ++
          ("\n\t\t\t<details open class=\"cell\">\n\t\t\t\t<summary>" ++ htmlEscape t ++
            "</summary>\n\t\t\t\t" ++ c ++ "\n\t\t\t</details>")) ++
        ("\n\t\t\t<details open class=\"cell\">\n\t\t\t\t<summary>Console</summary>\n\t\t\t\t<pre>" ++
          htmlEscape (nb.console ++ s) ++
          "</pre>\n\t\t\t</details>\n\t\t</div>\n\t</body>\n</html>") ∧
    htmlEscape "<" = "&lt;" ∧ htmlEscape "&" = "&amp;" := by
  refine ⟨rfl, rfl, rfl, ?_, rfl, rfl⟩
  rw [renderString_decomp]
  simp only [Notebook.AddContent, Notebook.Print, Headers, headersList, List.map_append,
    sjoin_append, sjoin, List.map_cons, List.map_nil]
  simp [renderCell, cellBlock, consoleTail, String.append_assoc, String.append_empty]

/-- C5: writing the same header id twice keeps only the second value: the state
equals the one where only the second call happened, the mapping binds the id to
the second value, the key occurs exactly once in the mapping and exactly once in
the sorted key sequence the renderer emits, so the fragment is never duplicated. -/
theorem addHeader_last_write_wins (nb : Notebook) (id v₁ v₂ : String) :
    (nb.AddHeader id v₁).AddHeader id v₂ = nb.AddHeader id v₂ ∧
    List.lookup id (headersList ((nb.AddHeader id v₁).AddHeader id v₂)) = some v₂ ∧
    List.count id ((headersList ((nb.AddHeader id v₁).AddHeader id v₂)).map Prod.fst) = 1 ∧
    List.count id (sortedKeys (headersList ((nb.AddHeader id v₁).AddHeader id v₂))) = 1 ∧
    Headers ((nb.AddHeader id v₁).AddHeader id v₂) = Headers (nb.AddHeader id v₂) := by
  have hstate : (nb.AddHeader id v₁).AddHeader id v₂ = nb.AddHeader id v₂ := by
    cases h : nb.headers <;>
      simp [Notebook.AddHeader, h, mapSet_mapSet]
  have hkeys : (headersList ((nb.AddHeader id v₁).AddHeader id v₂)).map Prod.fst =
      id :: ((headersList (nb.AddHeader id v₁)).map Prod.fst).filter (fun x => x != id) := by
    rw [headersList_AddHeader]
    simp [mapSet, map_fst_filter_ne]
  have hcount : List.count id
      ((headersList ((nb.AddHeader id v₁).AddHeader id v₂)).map Prod.fst) = 1 := by
    rw [hkeys, List.count_cons_self]
    have : List.count id (((headersList (nb.AddHeader id v₁)).map Prod.fst).filter
        (fun x => x != id)) = 0 := by
      rw [List.count_eq_zero]
      intro hmem
      rw [List.mem_filter] at hmem
      simpa using hmem.2
    rw [this]
  refine ⟨hstate, ?_, hcount, ?_, by rw [hstate]⟩
  · rw [headersList_AddHeader, lookup_mapSet]
    simp
  · unfold sortedKeys
    rw [(List.perm_insertionSort (· ≤ ·) _).count_eq]
    exact hcount

/-- C6 counterexample: when file creation fails (here with cause "permission
denied"), Close returns the create error, which names the output path but does not
wrap the underlying failure - unwrapping it yields nothing rather than the
cause, contradicting the claim that any failure is returned wrapped. -/
theorem close_create_failure_not_wrapped :
    Notebook.Close (New "prog") (headersList (New "prog"))
        (fun _ => Except.error "permission denied") =
      Except.error (CloseError.createError "prog.html") ∧
    unwrapClose (CloseError.createError "prog.html") = none ∧
    unwrapClose (CloseError.createError "prog.html") ≠ some "permission denied" := by
  refine ⟨rfl, rfl, ?_⟩
  intro h
  exact Option.noConfusion h

/-- C6 amended: Close creates the file at the configured Output path and renders
into it; a creation failure is surfaced as an error naming the path but not
wrapping the underlying cause, a render/write failure is surfaced as an error
wrapping its cause, and no failure is silently swallowed - Close succeeds exactly
when creation and rendering both succeed. -/
theorem close_surfaces_all_failures (nb : Notebook) (enum : List (String × String))
    (create : String → Except String Sink) :
    (∀ e, create nb.Output = Except.error e →
      nb.Close enum create = Except.error (CloseError.createError nb.Output) ∧
      unwrapClose (CloseError.createError nb.Output) = none) ∧
    (∀ f e, create nb.Output = Except.ok f → (nb.Render enum f).1 = Except.error e →
      nb.Close enum create = Except.error (CloseError.renderError e) ∧
      unwrapClose (CloseError.renderError e) = some e) ∧
    (∀ f out, create nb.Output = Except.ok f → (nb.Render enum f).1 = Except.ok out →
      nb.Close enum create = Except.ok out) := by
  refine ⟨?_, ?_, ?_⟩
  · intro e he
    unfold Notebook.Close
    rw [he]
    exact ⟨rfl, rfl⟩
  · intro f e hf he
    simp only [Notebook.Close, hf, he]
    exact ⟨trivial, rfl⟩
  · intro f out hf ho
    simp only [Notebook.Close, hf, ho]

/-- Witness for the C6 amended theorem: a concrete failing creation is surfaced. -/
theorem close_surfaces_all_failures_witness :
    Notebook.Close (New "w") (headersList (New "w")) (fun _ => Except.error "denied") =
      Except.error (CloseError.createError (New "w").Output) ∧
    unwrapClose (CloseError.createError (New "w").Output) = none :=
  (close_surfaces_all_failures (New "w") (headersList (New "w"))
    (fun _ => Except.error "denied")).1 "denied" rfl

/-- C7: Render fails only when a write to the sink fails: on a sink accepting
every write it succeeds for every notebook state, producing exactly the rendered
document, and any error it returns is an error some write of the sink returned -
no document content can make rendering fail. -/
theorem render_error_iff_sink_fails (nb : Notebook) (w : Sink)
    (hw : ∀ a c, w.write a c = none) :
    (nb.Render (headersList nb) w).1 = Except.ok (renderString nb) ∧
    (∀ wf : Sink, ∀ e, (nb.Render (headersList nb) wf).1 = Except.error e →
      ∃ a c, wf.write a c = some e) := by
  constructor
  · show writeAll w "" (renderChunksWith nb (headersList nb)) = _
    rw [writeAll_of_accepts w hw _ _, String.empty_append]
    rfl
  · intro wf e he
    exact writeAll_error_source wf _ _ e he

/-- Witness for the C7 theorem on the always-accepting sink. -/
theorem render_error_iff_sink_fails_witness :
    ((New "w2").Render (headersList (New "w2")) allOk).1 =
      Except.ok (renderString (New "w2")) :=
  (render_error_iff_sink_fails (New "w2") allOk (fun _ _ => rfl)).1

/-- C8: a notebook from New has no cells, an empty console and exactly one header,
the cell-style id bound to the built-in stylesheet; Output defaults to the
program's base name with the .html extension and Title to the capitalized base
name, and both are plain record fields that remain overridable. -/
theorem new_initial_state_and_defaults (arg0 t o : String) :
    (New arg0).cells = [] ∧
    (New arg0).console = "" ∧
    (New arg0).headers = some [(HeaderCellStyle, cellStyle)] ∧
    List.lookup HeaderCellStyle (headersList (New arg0)) = some cellStyle ∧
    (headersList (New arg0)).map Prod.fst = [HeaderCellStyle] ∧
    (New arg0).Output = pathBase arg0 ++ ".html" ∧
    (New arg0).Title = stringsTitle (pathBase arg0) ∧
    ({ New arg0 with Title := t, Output := o } : Notebook).Title = t ∧
    ({ New arg0 with Title := t, Output := o } : Notebook).Output = o := by
  refine ⟨rfl, rfl, rfl, ?_, rfl, rfl, rfl, rfl, rfl⟩
  rw [show headersList (New arg0) = [(HeaderCellStyle, cellStyle)] from rfl, lookup_cons']
  simp

/-- C9: the notebook Title and each cell Title are escaped wherever they are
interpolated - the title element, the h1 heading, and each cell summary - while
cell content is spliced verbatim; HTML-special characters of titles therefore
appear as escaped literal text. -/
theorem titles_escaped_in_output (nb : Notebook) (h : nb.Title ≠ "") :
    renderString nb =
      "<!DOCTYPE html>\n<html>\n\t<head>" ++
        ("<title>" ++ htmlEscape nb.Title ++ "</title>") ++
        sjoin (Headers nb) ++
        "</head>\n\t<body>\n\t\t" ++
        ("<h1>" ++ htmlEscape nb.Title ++ "</h1>") ++
        "\n\t\t<div class=\"cell-container\">" ++
        sjoin (nb.cells.map (fun c =>
          "\n\t\t\t<details open class=\"cell\">\n\t\t\t\t<summary>" ++ htmlEscape c.Title ++
            "</summary>\n\t\t\t\t" ++ c.content ++ "\n\t\t\t</details>")) ++
        consoleTail nb.console ∧
    htmlEscape "<b>" = "&lt;b&gt;" ∧ htmlEscape "a&b" = "a&amp;b" := by
  refine ⟨?_, rfl, rfl⟩
  rw [renderString_decomp]
  have hm : List.map renderCell nb.cells = List.map (fun c =>
      "\n\t\t\t<details open class=\"cell\">\n\t\t\t\t<summary>" ++ htmlEscape c.Title ++
        "</summary>\n\t\t\t\t" ++ c.content ++ "\n\t\t\t</details>") nb.cells :=
    List.map_congr_left (fun c _ => rfl)
  rw [hm]
  simp [headPart, h, String.append_assoc]

/-- Witness for the C9 theorem at a notebook with the non-empty default title. -/
theorem titles_escaped_in_output_witness :
    (New "prog").Title ≠ "" ∧ htmlEscape "<b>" = "&lt;b&gt;" :=
  ⟨by decide, (titles_escaped_in_output (New "prog") (by decide)).2.1⟩

/-- C10: AddHeader is total on the zero-value Notebook whose header map is nil: it
allocates the map and registers the fragment, the resulting state carries exactly
that one binding and renders exactly that one fragment, and it has no default
stylesheet header. -/
theorem addHeader_total_on_zero_value (id c : String) :
    (Notebook.zero.AddHeader id c).headers = some [(id, c)] ∧
    List.lookup id (headersList (Notebook.zero.AddHeader id c)) = some c ∧
    Headers (Notebook.zero.AddHeader id c) = [c] ∧
    (id ≠ HeaderCellStyle →
      List.lookup HeaderCellStyle (headersList (Notebook.zero.AddHeader id c)) = none) := by
  have hl : headersList (Notebook.zero.AddHeader id c) = [(id, c)] := rfl
  refine ⟨rfl, ?_, ?_, ?_⟩
  · rw [hl, lookup_cons']
    simp
  · unfold Headers HeadersEnum sortedKeys
    rw [hl]
    simp [List.insertionSort, List.orderedInsert, lookup_cons']
  · intro h
    rw [hl, lookup_cons']
    simp [Ne.symm h]

/-- Witness for the C10 theorem: a header id other than cell-style leaves the
zero-value notebook without a stylesheet header. -/
theorem addHeader_total_on_zero_value_witness :
    ("x" : String) ≠ HeaderCellStyle ∧
    List.lookup HeaderCellStyle (headersList (Notebook.zero.AddHeader "x" "y")) = none :=
  ⟨by decide, (addHeader_total_on_zero_value "x" "y").2.2.2 (by decide)⟩

end NotebookGo
